import Mathlib

/-!
# Verification of the AMX benchmark driver (`perf_amx.cc`)

A shallow embedding of the benchmark driver in `src/perf_amx.cc`:
the metric formulas (`calc_data_size`, the `total_flop` expression shared by
`Benchmark::run_ip` and `Benchmark::run_gemm`), the result-row accumulation and
print-and-reset behaviour of class `Benchmark`, the two sweep drivers
(`run_bench_sq_matrix`, `run_bench_rect_matrix`), the `main` entry point, and the
pseudo-random matrix generation (`std::mt19937_64` / `std::mt19937` seeded with 47,
one `uniform_real_distribution<float>` sample per element).

Modelling conventions:
* C++ `uint64_t` arithmetic is `Nat` arithmetic reduced modulo `2 ^ 64` at each
  operation that can wrap.
* C++ `double` arithmetic is modelled exactly over `ℚ` (the conversion
  `uint64_t → double` and `double` addition/division are taken as exact; IEEE
  rounding of values at or above `2 ^ 53` is outside the embedding, as is the
  IEEE behaviour of division by zero, which yields infinity where `ℚ` yields 0 —
  the row keeps the raw duration so the degenerate case stays visible).
* The external kernel calls `amx_inner_product` / `amx_matmul` (declared in
  `dist.hpp`, an opaque collaborator) are modelled by passing the returned
  duration as an explicit parameter and recording the invocation, including the
  `debug` flag the driver hands over.
-/

set_option maxRecDepth 16000
set_option maxHeartbeats 2000000

namespace PerfAmx

/-- `2 ^ 64`, the modulus of C++ `uint64_t` arithmetic. -/
def W64 : ℕ := 2 ^ 64

/-- `uint64_t total_flop = (N1 * N2) * (2 * M - 1);` — the operation count computed
identically at line 64 (`run_ip`) and line 99 (`run_gemm`), in `uint64_t`
arithmetic: every product, the doubling and the subtraction wrap modulo `2 ^ 64`
(`2 * M - 1` at `M = 0` is `2 ^ 64 - 1`). Arguments are reduced modulo `2 ^ 64`
first, as they arrive in `uint64_t` parameters. -/
def total_flop (N1 N2 M : ℕ) : ℕ :=
  (N1 % W64 * (N2 % W64) % W64 * ((2 * (M % W64) % W64 + W64 - 1) % W64)) % W64

/-- `sizeof(bf16)`: the element type is a 16-bit brain float, 2 bytes. -/
def sizeof_bf16 : ℕ := 2

/-- `calc_data_size` (lines 16–19):
`((double)(N1 * M * sizeof(bf16)) + (double)(N2 * M * sizeof(bf16))) / ((double)(2 << 19))`.
The two byte counts are computed in `uint64_t` (wrapping modulo `2 ^ 64`), then
converted to `double` and combined; the `double` arithmetic is modelled exactly
over `ℚ`. `2 << 19 = 2 ^ 20 = 1048576`. -/
def calc_data_size (N1 N2 M : ℕ) : ℚ :=
  (((N1 % W64 * (M % W64) % W64 * sizeof_bf16) % W64 : ℕ)
      + ((N2 % W64 * (M % W64) % W64 * sizeof_bf16) % W64 : ℕ))
    / ((2 <<< 19 : ℕ) : ℚ)

/-- The dimension label `std::to_string(N1) + "/" + std::to_string(N2) + "/" + std::to_string(M)`. -/
def dims_string (N1 N2 M : ℕ) : String :=
  toString N1 ++ "/" ++ toString N2 ++ "/" ++ toString M

/-- One row of the results table, mirroring the six columns passed to
`pt->addRow(mode, dims, data_size, total_flop, dur, gflops)`. The `flop` field keeps
the `uint64_t` value of `total_flop` (the table stores its `double` image); there is
no anomaly-flag field because `addRow` has none. -/
structure Row where
  mode : String
  dims : String
  data_size : ℚ
  flop : ℕ
  dur : ℤ
  gflops : ℚ

/-- The row `run_ip` appends for configuration `(N1, N2, M)` when the kernel call
returned `dur` nanoseconds: mode label `"IP / AMX"`, `gflops = total_flop / dur`
(`double` division, modelled over `ℚ`). -/
def ip_row (N1 N2 M : ℕ) (dur : ℤ) : Row :=
  { mode := "IP / AMX"
    dims := dims_string N1 N2 M
    data_size := calc_data_size N1 N2 M
    flop := total_flop N1 N2 M
    dur := dur
    gflops := (total_flop N1 N2 M : ℚ) / (dur : ℚ) }

/-- The row `run_gemm` appends, with mode label `"GEMM / AMX"`; the metric formulas
are the same as in `run_ip`. -/
def gemm_row (N1 N2 M : ℕ) (dur : ℤ) : Row :=
  { mode := "GEMM / AMX"
    dims := dims_string N1 N2 M
    data_size := calc_data_size N1 N2 M
    flop := total_flop N1 N2 M
    dur := dur
    gflops := (total_flop N1 N2 M : ℚ) / (dur : ℚ) }

/-- The observable state of a `Benchmark` object plus its console history:
`debug` is the member `bool debug;` (never assigned by the constructor or by
`main`), `rows` the rows accumulated in the current `VariadicTable`, `printed`
the tables already rendered to `std::cout`, and `calls` the kernel invocations
issued so far as `(kernel name, dimension label, debug flag passed)`. -/
structure Benchmark where
  debug : Bool
  rows : List Row
  printed : List (List Row)
  calls : List (String × String × Bool)

/-- `Benchmark bench(engine, stream)`: the constructor initialises the table empty
and leaves the member `debug` uninitialised — its indeterminate value is the
`debug` argument here. -/
def Benchmark.init (debug : Bool) : Benchmark :=
  { debug := debug, rows := [], printed := [], calls := [] }

/-- Modelled from the spec: `print_results` renders the accumulated rows in
insertion order (`pt->print(std::cout)`, delegated to the external `VariadicTable`
renderer, which the spec's reporting contract states prints rows in insertion
order) and then replaces the table with a fresh empty one
(`pt = new pprinter(headers)`). -/
def Benchmark.print_results (bm : Benchmark) : Benchmark :=
  { bm with rows := [], printed := bm.printed ++ [bm.rows] }

/-- `Benchmark::run_ip(N1, N2, M)` (lines 41–74), observable effects: it invokes
`amx_inner_product(N1, N2, M, …, debug)` — recorded in `calls`, with the returned
duration `dur` supplied as a parameter since the kernel is external — and
unconditionally appends `ip_row N1 N2 M dur` to the table. The matrix-generation
step of the same function is embedded separately as `run_ip_gen` (the row does not
depend on the generated buffers except through `dur`). -/
def Benchmark.run_ip (bm : Benchmark) (N1 N2 M : ℕ) (dur : ℤ) : Benchmark :=
  { bm with
    rows := bm.rows ++ [ip_row N1 N2 M dur]
    calls := bm.calls ++ [("amx_inner_product", dims_string N1 N2 M, bm.debug)] }

/-- `Benchmark::run_gemm(N1, N2, M)` (lines 76–110), observable effects, analogous
to `Benchmark.run_ip`; the kernel is `amx_matmul` and the row `gemm_row`. -/
def Benchmark.run_gemm (bm : Benchmark) (N1 N2 M : ℕ) (dur : ℤ) : Benchmark :=
  { bm with
    rows := bm.rows ++ [gemm_row N1 N2 M dur]
    calls := bm.calls ++ [("amx_matmul", dims_string N1 N2 M, bm.debug)] }

/-- The size list of `run_bench_sq_matrix`:
`std::vector<uint64_t> sizes = {64, 128, 256, 512, 1024, 2048, 4096, 8192, 16384, 32768};`. -/
def sq_sizes : List ℕ :=
  [64, 128, 256, 512, 1024, 2048, 4096, 8192, 16384, 32768]

/-- `run_bench_sq_matrix` (lines 113–130): `bench.run_ip(size, size, size)` for each
size, `print_results`, then `bench.run_gemm(size, size, size)` for each size and a
final `print_results`. `d` is the indeterminate value of the uninitialised `debug`
member; `kip` and `kgemm` give the durations the external kernels return for each
configuration. -/
def run_bench_sq_matrix (d : Bool) (kip kgemm : ℕ → ℕ → ℕ → ℤ) : Benchmark :=
  let b1 := sq_sizes.foldl
    (fun bm size => bm.run_ip size size size (kip size size size)) (Benchmark.init d)
  let b2 := b1.print_results
  let b3 := sq_sizes.foldl
    (fun bm size => bm.run_gemm size size size (kgemm size size size)) b2
  b3.print_results

/-- `uint64_t const n2_base = 1024 * 1024;` -/
def n2_base : ℕ := 1024 * 1024

/-- `uint64_t const m = 1024;` — the fixed contraction dimension of the rectangular sweep. -/
def rect_m : ℕ := 1024

/-- `std::vector<uint64_t> n1s = {32, 64, 128, 256, 512, 1024, 2048, 4096, 8192, 16384, 32768};` -/
def n1s : List ℕ :=
  [32, 64, 128, 256, 512, 1024, 2048, 4096, 8192, 16384, 32768]

/-- `std::vector<uint64_t> n2_multipliers = {1, 2, 4, 8};` -/
def n2_multipliers : List ℕ := [1, 2, 4, 8]

/-- `run_bench_rect_matrix` (lines 132–153): for each `n1` (outer loop) and each
`n2_multiplier` (inner loop), `bench.run_ip(n1, n2_base * n2_multiplier, m)`, then
one `print_results`. -/
def run_bench_rect_matrix (d : Bool) (kip : ℕ → ℕ → ℕ → ℤ) : Benchmark :=
  let b1 := n1s.foldl
    (fun bm n1 =>
      n2_multipliers.foldl
        (fun bm n2_multiplier =>
          bm.run_ip n1 (n2_base * n2_multiplier) rect_m
            (kip n1 (n2_base * n2_multiplier) rect_m))
        bm)
    (Benchmark.init d)
  b1.print_results

/-- `main` (lines 155–166): CLI11 parses `-d,--debug` into the local
`bool debug = 0;` (`cli_debug` is the parsed value) and then calls
`run_bench_sq_matrix()` and `run_bench_rect_matrix()`. The parsed value is never
passed anywhere: each `run_bench_*` constructs its own `Benchmark`, whose `debug`
member stays uninitialised (`u1`, `u2` are those two indeterminate values).
`cli_debug` is unused on the right-hand side exactly because `main` never uses
`debug` after parsing it. -/
def main_run (cli_debug u1 u2 : Bool) (k1 k2 k3 : ℕ → ℕ → ℕ → ℤ) :
    Benchmark × Benchmark :=
  (run_bench_sq_matrix u1 k1 k2, run_bench_rect_matrix u2 k3)

/-! ## Matrix generation

`run_ip` fills both operand buffers from a single `std::mt19937_64 rng; rng.seed(47);`
and `run_gemm` from a single `std::mt19937 rng; rng.seed(47);`, drawing one
`std::uniform_real_distribution<float>` sample per element (both engines deliver at
least the 24 mantissa bits a `float` sample needs, so exactly one engine call is
consumed per sample). The stored `bf16` element is a fixed pure narrowing of the raw
engine output, so buffers are recorded as the lists of raw draws: equality of draw
lists is equivalent to byte-for-byte equality of the generated buffers. The loops
are embedded with their sequential semantics (the `omp parallel for` pragma, when
OpenMP is enabled, shares this one engine across threads; the sequential execution
is the program's semantics without OpenMP). -/

/-- The parameter set of `std::mersenne_twister_engine` (C++ `<random>`):
word size `w`, state size `n`, shift size `m`, mask bits `r`, xor mask `a`,
tempering parameters `u, d, s, b, t, c, l`, and initialization multiplier `f`. -/
structure MTParams where
  w : ℕ
  n : ℕ
  m : ℕ
  r : ℕ
  a : ℕ
  u : ℕ
  d : ℕ
  s : ℕ
  b : ℕ
  t : ℕ
  c : ℕ
  l : ℕ
  f : ℕ

/-- `std::mt19937_64`. -/
def mt19937_64Params : MTParams :=
  { w := 64, n := 312, m := 156, r := 31
    a := 0xB5026F5AA96619E9
    u := 29, d := 0x5555555555555555
    s := 17, b := 0x71D67FFFEDA60000
    t := 37, c := 0xFFF7EEE000000000
    l := 43, f := 6364136223846793005 }

/-- `std::mt19937`. -/
def mt19937Params : MTParams :=
  { w := 32, n := 624, m := 397, r := 31
    a := 0x9908B0DF
    u := 11, d := 0xFFFFFFFF
    s := 7, b := 0x9D2C5680
    t := 15, c := 0xEFC60000
    l := 18, f := 1812433253 }

/-- The low `r` bits. -/
def lowerMask (p : MTParams) : ℕ := 2 ^ p.r - 1

/-- Bits `r … w-1`. -/
def upperMask (p : MTParams) : ℕ := (2 ^ p.w - 1) - lowerMask p

/-- Engine state: the `n` state words and the position of the next word to temper
(`n` means the state must be twisted before the next output). -/
structure MTState where
  mt : List ℕ
  idx : ℕ

/-- Seed initialization, tail: `mt[i] = (f * (mt[i-1] ^ (mt[i-1] >> (w-2))) + i) mod 2^w`
for `i = i₀, i₀+1, …`, producing `count` words after the word `prev`. -/
def mtInitFrom (p : MTParams) (prev i : ℕ) : ℕ → List ℕ
  | 0 => []
  | count + 1 =>
      let x := (p.f * (prev ^^^ (prev >>> (p.w - 2))) + i) % 2 ^ p.w
      x :: mtInitFrom p x (i + 1) count

/-- `rng.seed(seed)`: `mt[0] = seed mod 2^w`, the remaining `n - 1` words from the
initialization recurrence; the next output will twist first. -/
def mtInit (p : MTParams) (seed : ℕ) : MTState :=
  let s0 := seed % 2 ^ p.w
  { mt := s0 :: mtInitFrom p s0 1 (p.n - 1), idx := p.n }

/-- One step of the in-place twist: word `i` becomes
`mt[(i+m) mod n] ^ xA` where `x` concatenates the upper `w-r` bits of `mt[i]` with
the lower `r` bits of `mt[(i+1) mod n]` and `xA = (x >> 1) ^ (a if x odd)`.
Later steps read words already rewritten by earlier ones, as in the in-place loop. -/
def twistLoop (p : MTParams) (mt : List ℕ) (i : ℕ) : ℕ → List ℕ
  | 0 => mt
  | fuel + 1 =>
      let x := (mt.getD i 0 &&& upperMask p) + (mt.getD ((i + 1) % p.n) 0 &&& lowerMask p)
      let xA := if x % 2 = 1 then (x >>> 1) ^^^ p.a else x >>> 1
      twistLoop p (mt.set i ((mt.getD ((i + p.m) % p.n) 0) ^^^ xA)) (i + 1) fuel

/-- The full twist of the `n` state words. -/
def twist (p : MTParams) (mt : List ℕ) : List ℕ := twistLoop p mt 0 p.n

/-- The output tempering
`y ^= (y >> u) & d; y ^= (y << s) & b; y ^= (y << t) & c; y ^= y >> l`. -/
def temper (p : MTParams) (y0 : ℕ) : ℕ :=
  let y1 := y0 ^^^ ((y0 >>> p.u) &&& p.d)
  let y2 := y1 ^^^ ((y1 <<< p.s) &&& p.b)
  let y3 := y2 ^^^ ((y2 <<< p.t) &&& p.c)
  y3 ^^^ (y3 >>> p.l)

/-- One call of `rng()`: twist when the state is exhausted, then temper the word at
the current position and advance. -/
def mtNext (p : MTParams) (st : MTState) : ℕ × MTState :=
  if st.idx ≥ p.n then
    let mt1 := twist p st.mt
    (temper p (mt1.getD 0 0), { mt := mt1, idx := 1 })
  else
    (temper p (st.mt.getD st.idx 0), { mt := st.mt, idx := st.idx + 1 })

/-- `count` successive draws from state `st`, returning the outputs in draw order
together with the final state. One draw corresponds to one matrix element
(`distrib(rng)` consumes exactly one engine call). -/
def mtDraws (p : MTParams) (st : MTState) : ℕ → List ℕ × MTState
  | 0 => ([], st)
  | count + 1 =>
      let v := mtNext p st
      let rest := mtDraws p v.2 count
      (v.1 :: rest.1, rest.2)

/-- The engine state after `k` draws. -/
def mtStateAfter (p : MTParams) (st : MTState) : ℕ → MTState
  | 0 => st
  | k + 1 => mtStateAfter p (mtNext p st).2 k

/-- The `k`-th output (0-based) of the engine seeded with `seed`. -/
def mtOut (p : MTParams) (seed k : ℕ) : ℕ :=
  (mtNext p (mtStateAfter p (mtInit p seed) k)).1

/-- The generation contract of §4.1: `generate(rows, cols, seed)` fills a
`rows × cols` buffer row-major from a freshly seeded engine, one draw per element. -/
def genMatrix (p : MTParams) (rows cols seed : ℕ) : List ℕ :=
  (mtDraws p (mtInit p seed) (rows * cols)).1

/-- The generation step of `run_ip` (lines 45–61): a single `std::mt19937_64`
seeded with 47 fills `mat_a` (`N1 * M` draws, row-major) and then `mat_b`
(`N2 * M` draws) from the same engine, the state threaded from the first fill
loop into the second. -/
def run_ip_gen (N1 N2 M : ℕ) : List ℕ × List ℕ :=
  let st0 := mtInit mt19937_64Params 47
  ((mtDraws mt19937_64Params st0 (N1 * M)).1,
   (mtDraws mt19937_64Params (mtDraws mt19937_64Params st0 (N1 * M)).2 (N2 * M)).1)

/-- The generation step of `run_gemm` (lines 80–96): a single `std::mt19937`
seeded with 47 fills `mat_a` (`N1 * M` draws) and then `mat_b` (`M * N2` draws)
from the same engine. -/
def run_gemm_gen (N1 N2 M : ℕ) : List ℕ × List ℕ :=
  let st0 := mtInit mt19937Params 47
  ((mtDraws mt19937Params st0 (N1 * M)).1,
   (mtDraws mt19937Params (mtDraws mt19937Params st0 (N1 * M)).2 (M * N2)).1)

/-! ## Helper lemmas -/

theorem W64_eq : W64 = 18446744073709551616 := by norm_num [W64]

example : total_flop 2 3 4 = 42 := by decide
example : total_flop 1 1 0 = 2 ^ 64 - 1 := by decide
example : calc_data_size 1024 1024 1024 = 4 := by
  norm_num [calc_data_size, W64, sizeof_bf16, Nat.shiftLeft_eq]
example : dims_string 64 128 256 = "64/128/256" := rfl

/-- At `M = 0` the `uint64_t` expression `(N1 * N2) * (2 * M - 1)` evaluates to
`N1 * N2 * (2^64 - 1)` reduced modulo `2^64`. -/
theorem total_flop_zero_M (N1 N2 : ℕ) (hN1 : N1 < W64) (hN2 : N2 < W64) :
    total_flop N1 N2 0 = (N1 * N2 * (W64 - 1)) % W64 := by
  simp only [total_flop]
  rw [Nat.mod_eq_of_lt hN1, Nat.mod_eq_of_lt hN2]
  have h0 : (2 * (0 % W64) % W64 + W64 - 1) % W64 = W64 - 1 := by
    norm_num [W64_eq]
  rw [h0]
  conv_rhs => rw [Nat.mul_mod]
  rw [Nat.mod_eq_of_lt (show W64 - 1 < W64 by norm_num [W64_eq])]

/-- `t * (2^64 - 1) mod 2^64 = 2^64 - (t mod 2^64)` whenever `t mod 2^64 ≠ 0`. -/
theorem mul_pred_mod (t : ℕ) (h : t % W64 ≠ 0) :
    (t * (W64 - 1)) % W64 = W64 - t % W64 := by
  rw [W64_eq] at h ⊢
  omega

/-! ## Claims about the metric formulas -/

/-- C1, counterexample: the operation count is computed in `uint64_t`, so at
`N1 = N2 = 2^32`, `M = 1` it wraps to `0` instead of the mathematical value
`2^32 · 2^32 · 1 = 2^64`: the recorded count does not equal `N1 · N2 · (2M − 1)`
for every configuration of positive integers. -/
theorem c1_counterexample :
    total_flop (2 ^ 32) (2 ^ 32) 1 ≠ 2 ^ 32 * 2 ^ 32 * (2 * 1 - 1) := by decide

/-- C1 (amended): for positive `N1, N2, M`, as long as the mathematical value
`N1 · N2 · (2M − 1)` fits in 64 bits, the operation count recorded by `run_ip`
and `run_gemm` (both compute the same `total_flop` expression at lines 64 and 99)
equals `N1 · N2 · (2M − 1)`; in general the recorded value is that product
modulo `2^64`. -/
theorem c1_total_flop_formula (N1 N2 M : ℕ)
    (hN1 : 1 ≤ N1) (hN2 : 1 ≤ N2) (hM : 1 ≤ M)
    (hfit : N1 * N2 * (2 * M - 1) < W64) :
    total_flop N1 N2 M = N1 * N2 * (2 * M - 1) := by
  have hpos : 0 < N1 * N2 * (2 * M - 1) :=
    Nat.mul_pos (Nat.mul_pos (by omega) (by omega)) (by omega)
  have hN1w : N1 < W64 :=
    lt_of_le_of_lt (Nat.le_of_dvd hpos ⟨N2 * (2 * M - 1), by ring⟩) hfit
  have hN2w : N2 < W64 :=
    lt_of_le_of_lt (Nat.le_of_dvd hpos ⟨N1 * (2 * M - 1), by ring⟩) hfit
  have hbw : 2 * M - 1 < W64 :=
    lt_of_le_of_lt (Nat.le_of_dvd hpos ⟨N1 * N2, by ring⟩) hfit
  have hMw : M < W64 := by omega
  have haw : N1 * N2 < W64 :=
    lt_of_le_of_lt (Nat.le_of_dvd hpos ⟨2 * M - 1, rfl⟩) hfit
  have ht : (2 * M % W64 + W64 - 1) % W64 = 2 * M - 1 := by
    rw [W64_eq] at hMw hbw ⊢
    omega
  simp only [total_flop]
  rw [Nat.mod_eq_of_lt hN1w, Nat.mod_eq_of_lt hN2w, Nat.mod_eq_of_lt hMw, ht,
    Nat.mod_eq_of_lt haw, Nat.mod_eq_of_lt hfit]

/-- C1, witness: `(N1, N2, M) = (2, 3, 4)` gives `2 · 3 · 7 = 42`. -/
theorem c1_witness : total_flop 2 3 4 = 2 * 3 * (2 * 4 - 1) :=
  c1_total_flop_formula 2 3 4 (by decide) (by decide) (by decide) (by decide)

/-- C2, counterexample: `calc_data_size` computes the two byte counts in
`uint64_t`, so at `N1 = 2^63`, `N2 = M = 1` the first product `2^63 · 1 · 2`
wraps to `0` and the result is `2 / 2^20` instead of the claimed
`(2^63 · 1 + 1 · 1) · 2 / 2^20`. -/
theorem c2_counterexample :
    calc_data_size (2 ^ 63) 1 1 ≠ ((2 ^ 63 * 1 + 1 * 1) * 2 : ℚ) / 2 ^ 20 := by
  norm_num [calc_data_size, W64, sizeof_bf16, Nat.shiftLeft_eq]

/-- C2 (amended): whenever the two byte counts `N1 · M · 2` and `N2 · M · 2` fit
in 64 bits, the data-size metric equals `(N1 · M + N2 · M) · 2 / 2^20` (element
size 2 bytes = `sizeof(bf16)`, divisor `2 << 19 = 2^20` exactly; the `double`
arithmetic is modelled exactly over `ℚ`). -/
theorem c2_data_size_formula (N1 N2 M : ℕ)
    (hN1 : 1 ≤ N1) (hN2 : 1 ≤ N2) (hM : 1 ≤ M)
    (h1 : N1 * M * 2 < W64) (h2 : N2 * M * 2 < W64) :
    calc_data_size N1 N2 M = ((N1 * M + N2 * M) * 2 : ℚ) / 2 ^ 20 := by
  have hpos1 : 0 < N1 * M * 2 := Nat.mul_pos (Nat.mul_pos (by omega) (by omega)) (by omega)
  have hpos2 : 0 < N2 * M * 2 := Nat.mul_pos (Nat.mul_pos (by omega) (by omega)) (by omega)
  have hN1w : N1 < W64 := lt_of_le_of_lt (Nat.le_of_dvd hpos1 ⟨M * 2, by ring⟩) h1
  have hN2w : N2 < W64 := lt_of_le_of_lt (Nat.le_of_dvd hpos2 ⟨M * 2, by ring⟩) h2
  have hMw : M < W64 := lt_of_le_of_lt (Nat.le_of_dvd hpos1 ⟨N1 * 2, by ring⟩) h1
  have ha1 : N1 * M < W64 := lt_of_le_of_lt (Nat.le_of_dvd hpos1 ⟨2, rfl⟩) h1
  have ha2 : N2 * M < W64 := lt_of_le_of_lt (Nat.le_of_dvd hpos2 ⟨2, rfl⟩) h2
  simp only [calc_data_size, sizeof_bf16]
  rw [Nat.mod_eq_of_lt hN1w, Nat.mod_eq_of_lt hN2w, Nat.mod_eq_of_lt hMw,
    Nat.mod_eq_of_lt ha1, Nat.mod_eq_of_lt ha2, Nat.mod_eq_of_lt h1, Nat.mod_eq_of_lt h2]
  have hsh : ((2 <<< 19 : ℕ) : ℚ) = 2 ^ 20 := by norm_num [Nat.shiftLeft_eq]
  rw [hsh]
  push_cast
  ring

/-- C2, witness: `(1024, 1024, 1024)` gives exactly `4` MiB. -/
theorem c2_witness : calc_data_size 1024 1024 1024 = 4 := by
  have h := c2_data_size_formula 1024 1024 1024 (by decide) (by decide) (by decide)
    (by decide) (by decide)
  rw [h]; norm_num

/-! ## Claims about error handling at degenerate inputs -/

/-- C5, counterexample: a configuration with `M = 0` is not rejected — `run_ip`
appends a result row, and its operation count is the wrapped `uint64_t` value
`2^64 − 1` (for `N1 = N2 = 1`). -/
theorem c5_counterexample :
    ((Benchmark.init false).run_ip 1 1 0 5).rows.length = 1 ∧
    ((Benchmark.init false).run_ip 1 1 0 5).rows.map Row.flop = [2 ^ 64 - 1] :=
  ⟨rfl, by decide⟩

/-- C5 (amended): `run_ip` and `run_gemm` do not reject `M = 0`; they
unconditionally append a result row whose operation count is the wrapped value
`N1 · N2 · (2^64 − 1) mod 2^64`. -/
theorem c5_zero_M_not_rejected (bm : Benchmark) (N1 N2 : ℕ) (dur : ℤ)
    (hN1 : N1 < W64) (hN2 : N2 < W64) :
    (bm.run_ip N1 N2 0 dur).rows = bm.rows ++ [ip_row N1 N2 0 dur] ∧
    (bm.run_gemm N1 N2 0 dur).rows = bm.rows ++ [gemm_row N1 N2 0 dur] ∧
    (ip_row N1 N2 0 dur).flop = (N1 * N2 * (W64 - 1)) % W64 ∧
    (gemm_row N1 N2 0 dur).flop = (N1 * N2 * (W64 - 1)) % W64 :=
  ⟨rfl, rfl, total_flop_zero_M N1 N2 hN1 hN2, total_flop_zero_M N1 N2 hN1 hN2⟩

/-- C5, witness at `(N1, N2, M) = (2, 3, 0)` with kernel duration 7. -/
theorem c5_witness :
    ((Benchmark.init false).run_ip 2 3 0 7).rows = (Benchmark.init false).rows ++ [ip_row 2 3 0 7] ∧
    ((Benchmark.init false).run_gemm 2 3 0 7).rows = (Benchmark.init false).rows ++ [gemm_row 2 3 0 7] ∧
    (ip_row 2 3 0 7).flop = (2 * 3 * (W64 - 1)) % W64 ∧
    (gemm_row 2 3 0 7).flop = (2 * 3 * (W64 - 1)) % W64 :=
  c5_zero_M_not_rejected (Benchmark.init false) 2 3 7 (by decide) (by decide)

/-- C6, counterexample: when the kernel returns duration `0` (or a negative
duration), the driver does not flag anything — it appends the ordinary row, whose
`gflops` field is the unchecked quotient `total_flop / dur` (`Row` has no anomaly
flag: it mirrors the six `addRow` columns exactly; in IEEE `double` arithmetic the
quotient at duration 0 is infinity). -/
theorem c6_counterexample :
    ((Benchmark.init false).run_ip 64 64 64 0).rows = [ip_row 64 64 64 0] ∧
    (ip_row 64 64 64 0).dur = 0 ∧
    (ip_row 64 64 64 0).gflops = (total_flop 64 64 64 : ℚ) / ((0 : ℤ) : ℚ) ∧
    ((Benchmark.init false).run_gemm 64 64 64 (-3)).rows = [gemm_row 64 64 64 (-3)] ∧
    (gemm_row 64 64 64 (-3)).dur = -3 :=
  ⟨rfl, rfl, rfl, rfl, rfl⟩

/-- C6 (amended): the driver performs no duration check at all: for every
duration, zero and negative included, `run_ip`/`run_gemm` append a row whose
`gflops` field is `total_flop / dur` and whose recorded duration is `dur`,
with no flagging (the row shape is the same for all durations). -/
theorem c6_no_duration_check (bm : Benchmark) (N1 N2 M : ℕ) (dur : ℤ) :
    (bm.run_ip N1 N2 M dur).rows = bm.rows ++ [ip_row N1 N2 M dur] ∧
    (bm.run_gemm N1 N2 M dur).rows = bm.rows ++ [gemm_row N1 N2 M dur] ∧
    (ip_row N1 N2 M dur).dur = dur ∧
    (ip_row N1 N2 M dur).gflops = (total_flop N1 N2 M : ℚ) / (dur : ℚ) ∧
    (gemm_row N1 N2 M dur).dur = dur ∧
    (gemm_row N1 N2 M dur).gflops = (total_flop N1 N2 M : ℚ) / (dur : ℚ) :=
  ⟨rfl, rfl, rfl, rfl, rfl, rfl⟩

/-- C10: at `M = 0` the recorded count is the `uint64_t`-wrapped value
`N1 · N2 · (2^64 − 1) mod 2^64`, which equals `2^64 − (N1 · N2 mod 2^64)`
whenever `N1 · N2 mod 2^64` is nonzero — no rejection, no negative value. -/
theorem c10_zero_M_wraps (N1 N2 : ℕ) (hN1 : N1 < 2 ^ 64) (hN2 : N2 < 2 ^ 64) :
    total_flop N1 N2 0 = (N1 * N2 * (2 ^ 64 - 1)) % 2 ^ 64 ∧
    (N1 * N2 % 2 ^ 64 ≠ 0 → total_flop N1 N2 0 = 2 ^ 64 - N1 * N2 % 2 ^ 64) := by
  refine ⟨total_flop_zero_M N1 N2 hN1 hN2, fun h => ?_⟩
  rw [total_flop_zero_M N1 N2 hN1 hN2]
  exact mul_pred_mod (N1 * N2) h

/-- C10, witness: `(N1, N2, M) = (3, 5, 0)` records `2^64 − 15`. -/
theorem c10_witness : total_flop 3 5 0 = 2 ^ 64 - 15 :=
  (c10_zero_M_wraps 3 5 (by decide) (by decide)).2 (by decide)

/-! ## Claims about the sweep drivers -/

/-- Characterization of the square sweep's inner-product loop: folding `run_ip`
over a size list appends one `ip_row` and records one kernel call per size, in
list order, leaving `debug` and `printed` untouched. -/
theorem run_ip_foldl_sq (kip : ℕ → ℕ → ℕ → ℤ) :
    ∀ (l : List ℕ) (bm : Benchmark),
      l.foldl (fun bm size => bm.run_ip size size size (kip size size size)) bm =
        { debug := bm.debug
          rows := bm.rows ++ l.map (fun size => ip_row size size size (kip size size size))
          printed := bm.printed
          calls := bm.calls ++ l.map (fun size =>
            ("amx_inner_product", dims_string size size size, bm.debug)) } := by
  intro l
  induction l with
  | nil => intro bm; simp
  | cons a l ih =>
      intro bm
      rw [List.foldl_cons, ih]
      simp [Benchmark.run_ip]

/-- Characterization of the square sweep's matrix-multiply loop, analogous to
`run_ip_foldl_sq`. -/
theorem run_gemm_foldl_sq (kgemm : ℕ → ℕ → ℕ → ℤ) :
    ∀ (l : List ℕ) (bm : Benchmark),
      l.foldl (fun bm size => bm.run_gemm size size size (kgemm size size size)) bm =
        { debug := bm.debug
          rows := bm.rows ++ l.map (fun size => gemm_row size size size (kgemm size size size))
          printed := bm.printed
          calls := bm.calls ++ l.map (fun size =>
            ("amx_matmul", dims_string size size size, bm.debug)) } := by
  intro l
  induction l with
  | nil => intro bm; simp
  | cons a l ih =>
      intro bm
      rw [List.foldl_cons, ih]
      simp [Benchmark.run_gemm]

/-- Characterization of the rectangular sweep's nested loops: the outer fold over
`N1` values appends, per `N1`, the four inner-product rows of the multipliers in
inner-loop order. -/
theorem run_ip_foldl_rect (kip : ℕ → ℕ → ℕ → ℤ) :
    ∀ (l : List ℕ) (bm : Benchmark),
      l.foldl (fun bm n1 =>
        n2_multipliers.foldl (fun bm n2_multiplier =>
          bm.run_ip n1 (n2_base * n2_multiplier) rect_m
            (kip n1 (n2_base * n2_multiplier) rect_m)) bm) bm =
        { debug := bm.debug
          rows := bm.rows ++ (l.map (fun n1 => n2_multipliers.map (fun n2_multiplier =>
            ip_row n1 (n2_base * n2_multiplier) rect_m
              (kip n1 (n2_base * n2_multiplier) rect_m)))).flatten
          printed := bm.printed
          calls := bm.calls ++ (l.map (fun n1 => n2_multipliers.map (fun n2_multiplier =>
            ("amx_inner_product", dims_string n1 (n2_base * n2_multiplier) rect_m,
              bm.debug)))).flatten } := by
  intro l
  induction l with
  | nil => intro bm; simp
  | cons a l ih =>
      intro bm
      rw [List.foldl_cons, ih]
      simp [n2_multipliers, Benchmark.run_ip]

/-- The whole square-matrix sweep, in closed form. -/
theorem run_bench_sq_matrix_eq (d : Bool) (kip kgemm : ℕ → ℕ → ℕ → ℤ) :
    run_bench_sq_matrix d kip kgemm =
      { debug := d
        rows := []
        printed := [sq_sizes.map (fun size => ip_row size size size (kip size size size)),
                    sq_sizes.map (fun size => gemm_row size size size (kgemm size size size))]
        calls := sq_sizes.map (fun size => ("amx_inner_product", dims_string size size size, d))
          ++ sq_sizes.map (fun size => ("amx_matmul", dims_string size size size, d)) } := by
  simp only [run_bench_sq_matrix]
  rw [run_ip_foldl_sq]
  simp only [Benchmark.init, Benchmark.print_results]
  rw [run_gemm_foldl_sq]
  simp [Benchmark.print_results]

/-- `print_results` moves the accumulated rows into the printed history and
clears the table. -/
theorem print_results_shift (d : Bool) (R : List Row) (C : List (String × String × Bool)) :
    Benchmark.print_results { debug := d, rows := [] ++ R, printed := [], calls := [] ++ C } =
      { debug := d, rows := [], printed := [R], calls := C } := rfl

/-- `run_bench_rect_matrix` unfolded to its final `print_results` call. -/
theorem rect_unfold (d : Bool) (kip : ℕ → ℕ → ℕ → ℤ) :
    run_bench_rect_matrix d kip =
      (n1s.foldl (fun bm n1 =>
        n2_multipliers.foldl (fun bm n2_multiplier =>
          bm.run_ip n1 (n2_base * n2_multiplier) rect_m
            (kip n1 (n2_base * n2_multiplier) rect_m)) bm)
        (Benchmark.init d)).print_results := by
  simp only [run_bench_rect_matrix]

/-- The state reached by the rectangular sweep's nested loops, started from a
fresh `Benchmark`. -/
theorem rect_state_eq (d : Bool) (kip : ℕ → ℕ → ℕ → ℤ) :
    n1s.foldl (fun bm n1 =>
      n2_multipliers.foldl (fun bm n2_multiplier =>
        bm.run_ip n1 (n2_base * n2_multiplier) rect_m
          (kip n1 (n2_base * n2_multiplier) rect_m)) bm)
      (Benchmark.init d) =
      { debug := d
        rows := [] ++ (n1s.map (fun n1 => n2_multipliers.map (fun n2_multiplier =>
          ip_row n1 (n2_base * n2_multiplier) rect_m
            (kip n1 (n2_base * n2_multiplier) rect_m)))).flatten
        printed := []
        calls := [] ++ (n1s.map (fun n1 => n2_multipliers.map (fun n2_multiplier =>
          ("amx_inner_product", dims_string n1 (n2_base * n2_multiplier) rect_m,
            d)))).flatten } := by
  rw [run_ip_foldl_rect]
  rfl

/-- The whole rectangular sweep, in closed form. -/
theorem run_bench_rect_matrix_eq (d : Bool) (kip : ℕ → ℕ → ℕ → ℤ) :
    run_bench_rect_matrix d kip =
      { debug := d
        rows := []
        printed := [(n1s.map (fun n1 => n2_multipliers.map (fun n2_multiplier =>
          ip_row n1 (n2_base * n2_multiplier) rect_m
            (kip n1 (n2_base * n2_multiplier) rect_m)))).flatten]
        calls := (n1s.map (fun n1 => n2_multipliers.map (fun n2_multiplier =>
          ("amx_inner_product", dims_string n1 (n2_base * n2_multiplier) rect_m,
            d)))).flatten } := by
  rw [rect_unfold, rect_state_eq, print_results_shift]

/-- C3: for any indeterminate debug value and any kernel durations, the
square-matrix sweep prints exactly two tables: first 10 inner-product rows, then
10 matrix-multiply rows, row `k` of each having `N1 = N2 = M` equal to the `k`-th
element of the strictly ascending sequence `64, …, 32768`; rows appear in
invocation (insertion) order and the table is empty after the final reset. -/
theorem c3_sq_sweep (d : Bool) (kip kgemm : ℕ → ℕ → ℕ → ℤ) :
    (run_bench_sq_matrix d kip kgemm).printed.length = 2 ∧
    ((run_bench_sq_matrix d kip kgemm).printed.getD 0 []).map Row.mode =
      List.replicate 10 "IP / AMX" ∧
    ((run_bench_sq_matrix d kip kgemm).printed.getD 1 []).map Row.mode =
      List.replicate 10 "GEMM / AMX" ∧
    ((run_bench_sq_matrix d kip kgemm).printed.getD 0 []).map Row.dims =
      sq_sizes.map (fun size => dims_string size size size) ∧
    ((run_bench_sq_matrix d kip kgemm).printed.getD 1 []).map Row.dims =
      sq_sizes.map (fun size => dims_string size size size) ∧
    sq_sizes = [64, 128, 256, 512, 1024, 2048, 4096, 8192, 16384, 32768] ∧
    List.Chain' (· < ·) sq_sizes ∧
    (run_bench_sq_matrix d kip kgemm).rows = [] := by
  rw [run_bench_sq_matrix_eq]
  exact ⟨rfl, rfl, rfl, rfl, rfl, rfl, by norm_num [sq_sizes, List.chain'_cons], rfl⟩

/-- C4: the rectangular sweep prints one table of exactly `11 × 4 = 44`
inner-product rows; every row has `M = 1024`, `N2` runs through
`n2_base · {1, 2, 4, 8} = {1048576, 2097152, 4194304, 8388608}` fastest within
each `N1`, and `N1` advances through `32, …, 32768` in outer, `N1`-major order
(the flattened row order below is exactly the nested loop order of the source). -/
theorem c4_rect_sweep (d : Bool) (kip : ℕ → ℕ → ℕ → ℤ) :
    (run_bench_rect_matrix d kip).printed.length = 1 ∧
    ((run_bench_rect_matrix d kip).printed.getD 0 []).length = 44 ∧
    ((run_bench_rect_matrix d kip).printed.getD 0 []).map Row.mode =
      List.replicate 44 "IP / AMX" ∧
    ((run_bench_rect_matrix d kip).printed.getD 0 []).map Row.dims =
      (n1s.map (fun n1 =>
        n2_multipliers.map (fun n2_multiplier =>
          dims_string n1 (n2_base * n2_multiplier) rect_m))).flatten ∧
    n1s = [32, 64, 128, 256, 512, 1024, 2048, 4096, 8192, 16384, 32768] ∧
    n2_multipliers.map (fun n2_multiplier => n2_base * n2_multiplier) =
      [1048576, 2097152, 4194304, 8388608] ∧
    rect_m = 1024 ∧
    n1s.length = 11 ∧ n2_multipliers.length = 4 ∧
    (run_bench_rect_matrix d kip).rows = [] := by
  rw [run_bench_rect_matrix_eq]
  exact ⟨rfl, rfl, rfl, rfl, rfl, rfl, rfl, rfl, rfl, rfl⟩

/-! ## Claim about the command line -/

/-- C7: the parsed `--debug` / `-d` value never influences the run. `main` parses
it into a local variable and never passes it on: both `run_bench_*` construct
`Benchmark` objects whose `debug` member is left uninitialised, and that
indeterminate value (`u1` resp. `u2`) — not the CLI value — is what every one of
the 20 + 44 kernel invocations receives as its debug argument. -/
theorem c7_debug_flag_not_wired (cli1 cli2 u1 u2 : Bool) (k1 k2 k3 : ℕ → ℕ → ℕ → ℤ) :
    main_run cli1 u1 u2 k1 k2 k3 = main_run cli2 u1 u2 k1 k2 k3 ∧
    ((main_run cli1 u1 u2 k1 k2 k3).1.calls).map (fun call => call.2.2) =
      List.replicate 20 u1 ∧
    ((main_run cli1 u1 u2 k1 k2 k3).2.calls).map (fun call => call.2.2) =
      List.replicate 44 u2 := by
  refine ⟨rfl, ?_, ?_⟩
  · show (run_bench_sq_matrix u1 k1 k2).calls.map (fun call => call.2.2) = _
    rw [run_bench_sq_matrix_eq]
    rfl
  · show (run_bench_rect_matrix u2 k3).calls.map (fun call => call.2.2) = _
    rw [run_bench_rect_matrix_eq]
    rfl

/-! ## Claims about matrix generation -/

theorem mtStateAfter_add (p : MTParams) :
    ∀ (a : ℕ) (st : MTState) (k : ℕ),
      mtStateAfter p (mtStateAfter p st a) k = mtStateAfter p st (a + k) := by
  intro a
  induction a with
  | zero => intro st k; rw [Nat.zero_add]; rfl
  | succ n ih =>
      intro st k
      have h1 : n + 1 + k = (n + k) + 1 := by omega
      rw [h1]
      exact ih (mtNext p st).2 k

theorem mtDraws_fst (p : MTParams) :
    ∀ (count : ℕ) (st : MTState),
      (mtDraws p st count).1 =
        (List.range count).map (fun i => (mtNext p (mtStateAfter p st i)).1) := by
  intro count
  induction count with
  | zero => intro st; rfl
  | succ n ih =>
      intro st
      show (mtNext p st).1 :: (mtDraws p (mtNext p st).2 n).1 = _
      rw [ih, List.range_succ_eq_map, List.map_cons, List.map_map]
      rfl

theorem mtDraws_snd (p : MTParams) :
    ∀ (count : ℕ) (st : MTState),
      (mtDraws p st count).2 = mtStateAfter p st count := by
  intro count
  induction count with
  | zero => intro st; rfl
  | succ n ih =>
      intro st
      show (mtDraws p (mtNext p st).2 n).2 = _
      rw [ih]
      rfl

/-- C8: generation is deterministic — the embedded generation function is a pure
function of `(rows, cols, seed)`, so two executions with identical arguments
produce identical draw lists (hence bit-identical stored buffers, each stored
element being a fixed narrowing of its draw); and the buffers built inside
`run_ip` / `run_gemm` are exactly `genMatrix` runs seeded with 47, for both
engines. -/
theorem c8_generation_deterministic
    (rows cols seed rows' cols' seed' N1 N2 M : ℕ)
    (h : (rows, cols, seed) = (rows', cols', seed')) :
    genMatrix mt19937_64Params rows cols seed = genMatrix mt19937_64Params rows' cols' seed' ∧
    genMatrix mt19937Params rows cols seed = genMatrix mt19937Params rows' cols' seed' ∧
    (run_ip_gen N1 N2 M).1 = genMatrix mt19937_64Params N1 M 47 ∧
    (run_gemm_gen N1 N2 M).1 = genMatrix mt19937Params N1 M 47 := by
  injection h with h1 h23
  injection h23 with h2 h3
  subst h1; subst h2; subst h3
  exact ⟨rfl, rfl, rfl, rfl⟩

/-- C8, witness: two generation runs at `(rows, cols, seed) = (2, 3, 47)`, and the
`run_ip` / `run_gemm` left operands at `(N1, N2, M) = (2, 3, 4)`. -/
theorem c8_witness :
    genMatrix mt19937_64Params 2 3 47 = genMatrix mt19937_64Params 2 3 47 ∧
    genMatrix mt19937Params 2 3 47 = genMatrix mt19937Params 2 3 47 ∧
    (run_ip_gen 2 3 4).1 = genMatrix mt19937_64Params 2 4 47 ∧
    (run_gemm_gen 2 3 4).1 = genMatrix mt19937Params 2 4 47 :=
  c8_generation_deterministic 2 3 47 2 3 47 2 3 4 rfl

/-- C9, counterexample: at `(N1, N2, M) = (1, 1, 1)` inside `run_ip`, the right
operand's single element is output number 1 of the very stream (mt19937_64 seeded
47) whose output number 0 filled the left operand — a continuation of the same
random stream, not a draw from a distinct engine/seed (a freshly seeded engine
would emit its output 0 first, which differs); likewise in `run_gemm` with
mt19937. -/
theorem c9_counterexample :
    (run_ip_gen 1 1 1).1 = [mtOut mt19937_64Params 47 0] ∧
    (run_ip_gen 1 1 1).2 = [mtOut mt19937_64Params 47 1] ∧
    mtOut mt19937_64Params 47 1 ≠ mtOut mt19937_64Params 47 0 ∧
    (run_gemm_gen 1 1 1).2 = [mtOut mt19937Params 47 1] ∧
    mtOut mt19937Params 47 1 ≠ mtOut mt19937Params 47 0 :=
  ⟨by decide, by decide, by decide, by decide, by decide⟩

/-- C9 (amended): within a single invocation both operand matrices are drawn from
one engine seeded 47 — mt19937_64 in `run_ip`, mt19937 in `run_gemm` — with the
right operand's draws continuing the left operand's stream at position `N1 · M`;
the two engine families differ between `run_ip` and `run_gemm` (their seed-47
streams differ already at output 0), not between the two operands of one
invocation. -/
theorem c9_single_stream_per_invocation (N1 N2 M : ℕ) :
    (run_ip_gen N1 N2 M).1 =
      (List.range (N1 * M)).map (mtOut mt19937_64Params 47) ∧
    (run_ip_gen N1 N2 M).2 =
      (List.range (N2 * M)).map (fun i => mtOut mt19937_64Params 47 (N1 * M + i)) ∧
    (run_gemm_gen N1 N2 M).1 =
      (List.range (N1 * M)).map (mtOut mt19937Params 47) ∧
    (run_gemm_gen N1 N2 M).2 =
      (List.range (M * N2)).map (fun i => mtOut mt19937Params 47 (N1 * M + i)) ∧
    mtOut mt19937_64Params 47 0 ≠ mtOut mt19937Params 47 0 := by
  refine ⟨?_, ?_, ?_, ?_, by decide⟩
  · show (mtDraws mt19937_64Params (mtInit mt19937_64Params 47) (N1 * M)).1 = _
    rw [mtDraws_fst]
    rfl
  · show (mtDraws mt19937_64Params
        (mtDraws mt19937_64Params (mtInit mt19937_64Params 47) (N1 * M)).2 (N2 * M)).1 = _
    rw [mtDraws_snd, mtDraws_fst]
    simp only [mtStateAfter_add]
    rfl
  · show (mtDraws mt19937Params (mtInit mt19937Params 47) (N1 * M)).1 = _
    rw [mtDraws_fst]
    rfl
  · show (mtDraws mt19937Params
        (mtDraws mt19937Params (mtInit mt19937Params 47) (N1 * M)).2 (M * N2)).1 = _
    rw [mtDraws_snd, mtDraws_fst]
    simp only [mtStateAfter_add]
    rfl

end PerfAmx
